import Mathlib

set_option maxHeartbeats 1000000

/-!
Shallow embedding of the Umi-OCR logging module
(UmiOCR-data/py_src/imports/umi_log.py) and of the plain-text output writer
(UmiOCR-data/pyapp/ocr/output/output_txt.py), together with proofs about the
behaviour of their operations.
-/

/-- Association-list lookup, modelling Python attribute and dictionary access
by name (Python dictionaries have unique keys, so the first match wins). -/
def lookupA {α : Type} : List (String × α) → String → Option α
  | [], _ => none
  | (k, v) :: rest, key => if k = key then some v else lookupA rest key

/-- Association-list write, modelling Python setattr: replaces the value at an
existing key in place, appends the binding when the key is new. -/
def setA {α : Type} : List (String × α) → String → α → List (String × α)
  | [], key, v => [(key, v)]
  | (k, w) :: rest, key, v =>
    if k = key then (k, v) :: rest else (k, w) :: setA rest key v

/-- Association-list pointwise update at one key; used for the process-global
logger registry that logging.getLogger reads and writes. -/
def updateA {α : Type} (f : α → α) : List (String × α) → String → List (String × α)
  | [], _ => []
  | (k, v) :: rest, key =>
    if k = key then (k, f v) :: rest else (k, v) :: updateA f rest key

/-- Python values stored in a log record's attribute dictionary. -/
inductive PyVal : Type where
  | str (s : String)
  | int (n : Int)
  | pynone
  | dict (entries : List (String × PyVal))

/-- One internal error-logging call made by the cover filter's except branch:
logger.error with exc_info and stack_info enabled and no extra cover map. -/
structure ErrLogCall where
  msg : String
  exc_info : Bool
  stack_info : Bool
  cover : Option (List (String × PyVal))

/-- Result of running _CoverFilter.filter on one record: the possibly mutated
record attributes, the boolean the filter returns, and the internal
error-logging calls the filter made while running. -/
structure FilterResult where
  record : List (String × PyVal)
  keep : Bool
  errLogs : List ErrLogCall

/-- The loop body of _CoverFilter.filter: for every key-value pair of the
cover map, if the record has an attribute of that name, overwrite it. -/
def coverApply : List (String × PyVal) → List (String × PyVal) → List (String × PyVal)
  | [], record => record
  | (k, v) :: rest, record =>
    coverApply rest (if (lookupA record k).isSome then setA record k v else record)

/-- _CoverFilter.filter: reads the record's cover attribute (defaulting to the
empty dictionary when absent), copies every entry whose key is an existing
record attribute onto the record, and returns True. When the cover value is
not a dictionary, iterating its items raises; the except branch then logs the
failure through the same logger with exc_info and stack_info enabled (and no
cover map of its own) and returns False. -/
def coverFilter (record : List (String × PyVal)) : FilterResult :=
  match lookupA record "cover" with
  | some (PyVal.dict d) => ⟨coverApply d record, true, []⟩
  | none => ⟨record, true, []⟩
  | some _ => ⟨record, false, [⟨"日志过滤错误", true, true, none⟩]⟩

/-- The fixed severity-to-symbol table LEVEL_SYMBOLS of _LevelFormatter. -/
def LEVEL_SYMBOLS : List (String × String) :=
  [("DEBUG", "√"), ("INFO", "i"), ("WARNING", "?"), ("ERROR", "×"), ("CRITICAL", "!")]

/-- The symbol the console formatter renders for a severity level name:
the table entry when the name is in LEVEL_SYMBOLS, the raw level name
otherwise (LEVEL_SYMBOLS.get levelname levelname). -/
def levelSymbol (levelname : String) : String :=
  (lookupA LEVEL_SYMBOLS levelname).getD levelname

/-- A record as seen by the console formatter. -/
structure ConsoleRecord where
  asctime : String
  levelname : String
  funcName : String
  message : String

/-- _LevelFormatter.format with the console format string: sets the record's
levelsymbol from the table and renders asctime, symbol, funcName and message
separated as in the format string. -/
def levelFormatterFormat (r : ConsoleRecord) : String :=
  r.asctime ++ " " ++ levelSymbol r.levelname ++ " " ++ r.funcName ++ " | " ++ r.message

/-- Decimal digit character; only ever applied to values below ten, the
defaulting arm is unreachable there. -/
def digitChar : Nat → Char
  | 0 => '0'
  | 1 => '1'
  | 2 => '2'
  | 3 => '3'
  | 4 => '4'
  | 5 => '5'
  | 6 => '6'
  | 7 => '7'
  | 8 => '8'
  | 9 => '9'
  | _ => '0'

/-- Decimal digit characters with an explicit recursion-depth bound; the
wrapper below always supplies enough fuel for every division step. -/
def natDigitsAux : Nat → Nat → List Char
  | 0, n => [digitChar n]
  | fuel + 1, n =>
    if n < 10 then [digitChar n]
    else natDigitsAux fuel (n / 10) ++ [digitChar (n % 10)]

/-- Decimal digit characters of a natural number, most significant first. -/
def natDigits (n : Nat) : List Char := natDigitsAux n n

/-- Zero-padding to a fixed field width, as the strftime directives for year,
month, day, hour, minute, second and microsecond all do. -/
def pad (w n : Nat) : List Char :=
  List.replicate (w - (natDigits n).length) '0' ++ natDigits n

/-- A calendar date-time, the value datetime.fromtimestamp yields for the
record's creation instant. -/
structure DateTime where
  year : Nat
  month : Nat
  day : Nat
  hour : Nat
  minute : Nat
  second : Nat
  microsecond : Nat

/-- Bounds satisfied by every calendar date-time that datetime.fromtimestamp
can produce; they keep each strftime field inside its zero-padded width. -/
abbrev DateTime.Valid (t : DateTime) : Prop :=
  t.year ≤ 9999 ∧ t.month ≤ 99 ∧ t.day ≤ 99 ∧ t.hour ≤ 99 ∧
    t.minute ≤ 99 ∧ t.second ≤ 99 ∧ t.microsecond ≤ 999999

/-- strftime with the handler's time format: zero-padded year-month-day,
a space, hour:minute:second, a dot, and the six microsecond digits. -/
def strftimeLog (t : DateTime) : String :=
  String.mk (pad 4 t.year ++ '-' :: (pad 2 t.month ++ '-' :: (pad 2 t.day ++ ' ' ::
    (pad 2 t.hour ++ ':' :: (pad 2 t.minute ++ ':' ::
      (pad 2 t.second ++ '.' :: pad 6 t.microsecond))))))

/-- The shape required of the serialized time field: four year digits, dash,
two month digits, dash, two day digits, space, two hour digits, colon, two
minute digits, colon, two second digits, dot, six microsecond digits. -/
def TimeFormat (s : String) : Prop :=
  ∃ y mo d h mi se us : List Char,
    s.data = y ++ '-' :: (mo ++ '-' :: (d ++ ' ' :: (h ++ ':' :: (mi ++ ':' ::
      (se ++ '.' :: us))))) ∧
    y.length = 4 ∧ mo.length = 2 ∧ d.length = 2 ∧ h.length = 2 ∧
    mi.length = 2 ∧ se.length = 2 ∧ us.length = 6 ∧
    (∀ c ∈ y ++ mo ++ d ++ h ++ mi ++ se ++ us, c.isDigit = true)

/-- Python percent formatting restricted to string substitutions: each
percent-s placeholder consumes one argument; a missing or leftover argument
raises, reported here as an error value. -/
def percentFormat : List Char → List String → Except Unit (List Char)
  | [], [] => Except.ok []
  | [], _ :: _ => Except.error ()
  | '%' :: 's' :: rest, a :: args =>
    match percentFormat rest args with
    | Except.ok l => Except.ok (a.data ++ l)
    | Except.error e => Except.error e
  | '%' :: 's' :: _, [] => Except.error ()
  | c :: rest, args =>
    match percentFormat rest args with
    | Except.ok l => Except.ok (c :: l)
    | Except.error e => Except.error e

/-- LogRecord.getMessage: the fully resolved message; when arguments are
present the message is percent-formatted with them, and a mismatch raises. -/
def getMessage (msg : String) (args : List String) : Except Unit String :=
  match args with
  | [] => Except.ok msg
  | _ :: _ =>
    match percentFormat msg.data args with
    | Except.ok l => Except.ok (String.mk l)
    | Except.error e => Except.error e

/-- JSON values appearing in the serialized log dictionary. -/
inductive JVal : Type where
  | s (v : String)
  | n (v : Int)
  | null

/-- Opening brace character of a JSON object. -/
def lcurly : Char := Char.ofNat 123

/-- Closing brace character of a JSON object. -/
def rcurly : Char := Char.ofNat 125

/-- JSON string escaping as json.dump performs it with ensure-ascii disabled:
quote, backslash and the common control characters are escaped, every other
character is written verbatim. -/
def escapeChar (c : Char) : List Char :=
  if c = '\"' then ['\\', '\"']
  else if c = '\\' then ['\\', '\\']
  else if c = '\n' then ['\\', 'n']
  else if c = '\r' then ['\\', 'r']
  else if c = '\t' then ['\\', 't']
  else [c]

/-- A JSON string literal: quote, escaped characters, quote. -/
def jstr (s : String) : List Char :=
  '\"' :: ((s.data.map escapeChar).flatten ++ ['\"'])

/-- Decimal rendering of a JSON integer. -/
def intChars : Int → List Char
  | Int.ofNat n => natDigits n
  | Int.negSucc n => '-' :: natDigits (n + 1)

/-- Rendering of one JSON value. -/
def jvalRender : JVal → List Char
  | JVal.s v => jstr v
  | JVal.n v => intChars v
  | JVal.null => ['n', 'u', 'l', 'l']

/-- One key-value entry of the JSON object with json.dump's default key-value
separator (colon and space). -/
def entryRender (kv : String × JVal) : List Char :=
  jstr kv.1 ++ (':' :: ' ' :: jvalRender kv.2)

/-- json.dump's default item separator: comma and space between entries. -/
def joinComma : List (List Char) → List Char
  | [] => []
  | [x] => x
  | x :: xs => x ++ (',' :: ' ' :: joinComma xs)

/-- json.dump of the ordered log dictionary: a single JSON object. -/
def dumpJson (d : List (String × JVal)) : String :=
  String.mk (lcurly :: (joinComma (d.map entryRender) ++ [rcurly]))

/-- The attributes of a LogRecord that _JsonRotatingFileHandler reads; the
creation instant is carried as the calendar date-time that
datetime.fromtimestamp yields for it. -/
structure JsonRecord where
  created : DateTime
  levelname : String
  msg : String
  args : List String
  filename : String
  lineno : Int
  module : String
  funcName : String
  exc_text : Option String
  stack_info : Option String
  thread : Int
  threadName : String
  process : Int
  processName : String
  name : String

/-- An optional text attribute: serialized as null when absent. -/
def optJ : Option String → JVal
  | some s => JVal.s s
  | none => JVal.null

/-- _JsonRotatingFileHandler._record_to_dict: the ordered log dictionary, or an
error when resolving the message raises. -/
def recordToDict (r : JsonRecord) : Except Unit (List (String × JVal)) :=
  match getMessage r.msg r.args with
  | Except.error e => Except.error e
  | Except.ok m =>
    Except.ok
      [("time", JVal.s (strftimeLog r.created)),
       ("level", JVal.s r.levelname),
       ("message", JVal.s m),
       ("filename", JVal.s r.filename),
       ("lineno", JVal.n r.lineno),
       ("module", JVal.s r.module),
       ("funcName", JVal.s r.funcName),
       ("exc_text", optJ r.exc_text),
       ("stack_info", optJ r.stack_info),
       ("thread", JVal.n r.thread),
       ("threadName", JVal.s r.threadName),
       ("process", JVal.n r.process),
       ("processName", JVal.s r.processName),
       ("name", JVal.s r.name)]

/-- The JSON handler's on-disk state: the current target file's contents and
the contents of the backup generations. -/
structure JsonFileState where
  base : String
  backups : List String

/-- Outcome of one emit call: the new file-system state and how many times the
handler's internal error path (handleError) ran during the call. -/
structure EmitResult where
  fs : JsonFileState
  handleErrors : Nat

/-- _JsonRotatingFileHandler.emit. Serialization is attempted first; on a
serialization failure handleError runs and then the write block, referencing
the unbound dictionary, raises as well, so handleError runs a second time and
the file contents are unchanged. Otherwise the target file is opened in append
mode, one serialized line plus a newline is written, and the file is closed.
A write failure (the writeFails flag, modelled as failing before any byte is
persisted) runs handleError once and leaves the file unchanged. No branch
consults the file size, renames the file, or touches the backup generations,
and no branch lets an exception escape to the caller. -/
def jsonEmit (writeFails : Bool) (s : JsonFileState) (r : JsonRecord) : EmitResult :=
  match recordToDict r with
  | Except.error _ => ⟨s, 2⟩
  | Except.ok d =>
    if writeFails then ⟨s, 1⟩
    else ⟨⟨s.base ++ dumpJson d ++ "\n", s.backups⟩, 0⟩

/-- Kinds of handlers that create_logger attaches. -/
inductive HandlerKind : Type where
  | console
  | jsonFile
  deriving DecidableEq

/-- The mutable state of one Python Logger object: its level, the number of
attached cover filters, and its ordered handler list. -/
structure PyLogger where
  level : Nat
  filters : Nat
  handlers : List HandlerKind
  deriving DecidableEq

/-- A logger fresh out of logging.getLogger: no handlers, no filters, level
NOTSET. -/
def freshLogger : PyLogger := ⟨0, 0, []⟩

/-- The process-global registry behind logging.getLogger. -/
abbrev Registry := List (String × PyLogger)

/-- logging.getLogger: registers a fresh logger when the name is unknown and
returns the registry; a repeated name yields the same logger object. -/
def getLogger (reg : Registry) (name : String) : Registry :=
  match lookupA reg name with
  | some _ => reg
  | none => reg ++ [(name, freshLogger)]

/-- _LogManager.create_logger: fetches the process-global logger for the name,
attaches a new cover filter, sets the level to DEBUG (10), and attaches a new
console handler and a new JSON handler. Every call constructs brand-new filter
and handler objects, so the membership checks inside Logger.addFilter and
Logger.addHandler never deduplicate them. -/
def create_logger (reg : Registry) (name : String) : Registry :=
  updateA
    (fun lg =>
      { lg with
        filters := lg.filters + 1
        level := 10
        handlers := lg.handlers ++ [HandlerKind.console, HandlerKind.jsonFile] })
    (getLogger reg name) name

/-- Output lines produced when one record is emitted on a logger: one console
line per attached console handler and one JSON file line per attached JSON
handler. -/
def linesPerRecord (lg : PyLogger) : Nat × Nat :=
  (lg.handlers.count HandlerKind.console, lg.handlers.count HandlerKind.jsonFile)

/-- Logger severities. -/
inductive LogLevel : Type where
  | debug
  | info
  | warning
  | error
  | critical
  deriving DecidableEq

/-- QMessageLogContext: a field is absent when the toolkit supplies no debug
information for it, in which case getattr falls back to a question mark. -/
structure QtContext where
  file : Option String
  function : Option String
  line : Option Int
  category : Option String
  version : Option String

/-- QtMsgType enumeration value QtDebugMsg. -/
def qtDebugMsg : Nat := 0

/-- QtMsgType enumeration value QtWarningMsg. -/
def qtWarningMsg : Nat := 1

/-- QtMsgType enumeration value QtCriticalMsg. -/
def qtCriticalMsg : Nat := 2

/-- QtMsgType enumeration value QtFatalMsg. -/
def qtFatalMsg : Nat := 3

/-- QtMsgType enumeration value QtInfoMsg. -/
def qtInfoMsg : Nat := 4

/-- os.path.basename restricted to slash-separated paths: the part of the path
after the last slash. -/
def basename (p : String) : String :=
  String.mk ((p.data.reverse.takeWhile (fun c => !(c == '/'))).reverse)

/-- Function-name extraction in qt_message_handler: getattr falls back to a
question mark when the attribute is absent, and a falsy (empty) name is
replaced by the anonymous-function placeholder. -/
def qtFuncName (ctx : QtContext) : String :=
  let f := ctx.function.getD "?"
  if f = "" then "()=>\x7b\x7d" else f

/-- The override map qt_message_handler builds from the toolkit context. -/
def qtCover (ctx : QtContext) : List (String × PyVal) :=
  [("category", PyVal.str (ctx.category.getD "?")),
   ("filename", PyVal.str (basename (ctx.file.getD "?"))),
   ("funcName", PyVal.str (qtFuncName ctx)),
   ("lineno", match ctx.line with | some n => PyVal.int n | none => PyVal.str "?"),
   ("version", PyVal.str (ctx.version.getD "?")),
   ("module", PyVal.str "qml")]

/-- One logger emit call made by the Qt message handler. -/
structure QtEmit where
  level : LogLevel
  msg : String
  extra : List (String × PyVal)

/-- qt_message_handler: dispatches the five recognized QtMsgType values to the
five logger severities with the override map attached; any other mode value
falls through the if-chain and no emit operation is invoked. -/
def qt_message_handler (mode : Nat) (ctx : QtContext) (msg : String) : Option QtEmit :=
  let extra := qtCover ctx
  if mode = qtDebugMsg then some ⟨LogLevel.debug, msg, extra⟩
  else if mode = qtInfoMsg then some ⟨LogLevel.info, msg, extra⟩
  else if mode = qtWarningMsg then some ⟨LogLevel.warning, msg, extra⟩
  else if mode = qtCriticalMsg then some ⟨LogLevel.error, msg, extra⟩
  else if mode = qtFatalMsg then some ⟨LogLevel.critical, msg, extra⟩
  else none

/-- The data field of a per-image OCR result: the recognized text fragments on
success, an error message otherwise. -/
inductive ResData : Type where
  | frags (items : List String)
  | err (msg : String)

/-- A per-image OCR result record as consumed by the text writer. -/
structure OcrResult where
  code : Int
  fileName : String
  data : ResData

/-- Message text of a non-success result. -/
def resMsg : ResData → String
  | ResData.err m => m
  | ResData.frags _ => ""

/-- Text fragments of a success result. -/
def resFrags : ResData → List String
  | ResData.frags l => l
  | ResData.err _ => []

/-- OutputTxt.print: appends nothing when the code is not success and the
ignore-blank option is set; otherwise appends a header line naming the image,
then the per-code body (each fragment followed by a newline on success, a
fixed notice for code 101, an error line otherwise), then one extra blank
line. -/
def outputTxtPrint (ingoreBlank : Bool) (file : String) (res : OcrResult) : String :=
  if res.code ≠ 100 ∧ ingoreBlank = true then file
  else
    let t1 := "≦ " ++ res.fileName ++ " ≧\n"
    let t2 :=
      if res.code = 100 then String.join ((resFrags res.data).map (fun r => r ++ "\n"))
      else if res.code = 101 then "[Notice] No Text. \n【通知】图片中未找到文字。\n"
      else "[Error] OCR failed. Code: " ++ toString res.code ++ ", Msg: " ++
        resMsg res.data ++ "\n【异常】OCR识别失败。\n"
    file ++ t1 ++ t2 ++ "\n"

/-- Concrete record whose cover map overrides an existing attribute and also
carries a key matching no attribute. -/
def recEx : List (String × PyVal) :=
  [("filename", PyVal.str "umi_log.py"), ("lineno", PyVal.int 5),
   ("funcName", PyVal.str "emit"),
   ("cover", PyVal.dict [("lineno", PyVal.int 999), ("widget", PyVal.str "x")])]

/-- Concrete record whose cover attribute is not a dictionary, so iterating
its items raises inside the filter. -/
def recBad : List (String × PyVal) :=
  [("filename", PyVal.str "a.py"), ("cover", PyVal.int 3)]

/-- Concrete well-formed record for the JSON handler. -/
def rEx : JsonRecord :=
  { created := ⟨2024, 3, 7, 12, 34, 56, 789012⟩
    levelname := "INFO"
    msg := "hello"
    args := []
    filename := "umi_log.py"
    lineno := 42
    module := "umi_log"
    funcName := "emit"
    exc_text := none
    stack_info := none
    thread := 1
    threadName := "MainThread"
    process := 7
    processName := "MainProcess"
    name := "Umi-OCR" }

/-- Concrete record whose message resolution fails: two placeholders but only
one argument. -/
def rBad : JsonRecord :=
  { rEx with msg := "a %s b %s", args := ["x"] }

/-- The successful value of a serialization result. -/
def exOk : Except Unit (List (String × JVal)) → List (String × JVal)
  | Except.ok d => d
  | Except.error _ => []

/-- Concrete toolkit context with an empty (anonymous) function name. -/
def ctxEx : QtContext :=
  { file := some "/qml/main.qml", function := some "", line := some 12,
    category := some "qml", version := some "2" }

/-- Concrete no-text result for the text writer. -/
def resBlank : OcrResult := ⟨101, "a.png", ResData.err "no text"⟩

/-- Concrete success result with two text fragments for the text writer. -/
def resText : OcrResult := ⟨100, "b.png", ResData.frags ["hello", "world"]⟩

/-! Helper lemmas about association lists and the cover-filter loop. -/

theorem lookupA_setA_self {α : Type} (l : List (String × α)) (k : String) (v : α) :
    lookupA (setA l k v) k = some v := by
  induction l with
  | nil => simp [setA, lookupA]
  | cons p rest ih =>
    obtain ⟨k', w⟩ := p
    by_cases h : k' = k
    · simp [setA, h, lookupA]
    · simp [setA, h, lookupA, ih]

theorem lookupA_setA_ne {α : Type} (l : List (String × α)) (k q : String) (v : α)
    (h : k ≠ q) : lookupA (setA l k v) q = lookupA l q := by
  induction l with
  | nil => simp [setA, lookupA, h]
  | cons p rest ih =>
    obtain ⟨k', w⟩ := p
    by_cases hk : k' = k
    · subst hk
      simp [setA, lookupA, h]
    · simp [setA, hk, lookupA, ih]

theorem lookupA_isSome_iff {α : Type} (l : List (String × α)) (k : String) :
    (lookupA l k).isSome = true ↔ k ∈ l.map Prod.fst := by
  induction l with
  | nil => simp [lookupA]
  | cons p rest ih =>
    obtain ⟨k', w⟩ := p
    by_cases h : k' = k
    · subst h
      simp [lookupA]
    · simp [lookupA, h, ih, Ne.symm h]

theorem setA_map_fst {α : Type} (l : List (String × α)) (k : String) (v : α)
    (h : (lookupA l k).isSome = true) :
    (setA l k v).map Prod.fst = l.map Prod.fst := by
  induction l with
  | nil => simp [lookupA] at h
  | cons p rest ih =>
    obtain ⟨k', w⟩ := p
    by_cases hk : k' = k
    · simp [setA, hk]
    · have h' : (lookupA rest k).isSome = true := by simpa [lookupA, hk] using h
      simp [setA, hk, ih h']

theorem coverApply_map_fst (d : List (String × PyVal)) :
    ∀ record, (coverApply d record).map Prod.fst = record.map Prod.fst := by
  induction d with
  | nil => intro record; rfl
  | cons p rest ih =>
    obtain ⟨k, v⟩ := p
    intro record
    simp only [coverApply]
    by_cases h : (lookupA record k).isSome = true
    · rw [if_pos h, ih, setA_map_fst _ _ _ h]
    · rw [if_neg h, ih]

theorem coverApply_lookup_not_mem (d : List (String × PyVal)) (k : String) :
    ∀ record, k ∉ d.map Prod.fst →
      lookupA (coverApply d record) k = lookupA record k := by
  induction d with
  | nil => intro record _; rfl
  | cons p rest ih =>
    obtain ⟨k', v⟩ := p
    intro record h
    have hne : k' ≠ k := by
      intro he
      exact h (by simp [he])
    have hrest : k ∉ rest.map Prod.fst := by
      intro hm
      exact h (by simp [hm])
    simp only [coverApply]
    by_cases hs : (lookupA record k').isSome = true
    · rw [if_pos hs, ih _ hrest, lookupA_setA_ne _ _ _ _ hne]
    · rw [if_neg hs, ih _ hrest]

theorem coverApply_lookup_mem (k : String) (v : PyVal) :
    ∀ d : List (String × PyVal), (k, v) ∈ d → (d.map Prod.fst).Nodup →
      ∀ record, (lookupA record k).isSome = true →
        lookupA (coverApply d record) k = some v := by
  intro d
  induction d with
  | nil =>
    intro hmem _ _ _
    cases hmem
  | cons p rest ih =>
    obtain ⟨k', v'⟩ := p
    intro hmem hnd record hsome
    simp only [coverApply]
    rcases List.mem_cons.mp hmem with heq | hmem'
    · injection heq with hk hv
      subst hk
      subst hv
      rw [if_pos hsome]
      have hmap : (k :: rest.map Prod.fst).Nodup := by
        simpa only [List.map_cons] using hnd
      have hknotin : k ∉ rest.map Prod.fst := (List.nodup_cons.mp hmap).1
      rw [coverApply_lookup_not_mem rest k (setA record k v) hknotin,
        lookupA_setA_self]
    · have hmap : (k' :: rest.map Prod.fst).Nodup := by
        simpa only [List.map_cons] using hnd
      have hnd' : (rest.map Prod.fst).Nodup := (List.nodup_cons.mp hmap).2
      by_cases hs : (lookupA record k').isSome = true
      · rw [if_pos hs]
        have hsome' : (lookupA (setA record k' v') k).isSome = true := by
          by_cases hkk : k' = k
          · subst hkk
            rw [lookupA_setA_self]
            rfl
          · rw [lookupA_setA_ne _ _ _ _ hkk]
            exact hsome
        exact ih hmem' hnd' (setA record k' v') hsome'
      · rw [if_neg hs]
        exact ih hmem' hnd' record hsome

/-! Helper lemmas about decimal digits, padding and the time format. -/

theorem digitChar_isDigit (n : Nat) : (digitChar n).isDigit = true := by
  match n with
  | 0 | 1 | 2 | 3 | 4 | 5 | 6 | 7 | 8 | 9 => decide
  | k + 10 => rfl

theorem natDigitsAux_all_digit : ∀ fuel n : Nat, ∀ c ∈ natDigitsAux fuel n,
    c.isDigit = true := by
  intro fuel
  induction fuel with
  | zero =>
    intro n c hc
    simp only [natDigitsAux] at hc
    rw [List.mem_singleton] at hc
    subst hc
    exact digitChar_isDigit n
  | succ fuel ih =>
    intro n c hc
    simp only [natDigitsAux] at hc
    split at hc
    · rw [List.mem_singleton] at hc
      subst hc
      exact digitChar_isDigit n
    · rcases List.mem_append.mp hc with h1 | h2
      · exact ih (n / 10) c h1
      · rw [List.mem_singleton] at h2
        subst h2
        exact digitChar_isDigit _

theorem natDigits_all_digit (n : Nat) : ∀ c ∈ natDigits n, c.isDigit = true :=
  natDigitsAux_all_digit n n

theorem natDigitsAux_length_le : ∀ fuel k n : Nat, n < 10 ^ (k + 1) →
    (natDigitsAux fuel n).length ≤ k + 1 := by
  intro fuel
  induction fuel with
  | zero =>
    intro k n _
    simp [natDigitsAux]
  | succ fuel ih =>
    intro k n h
    simp only [natDigitsAux]
    split
    · simp
    · rename_i h10
      rw [List.length_append]
      cases k with
      | zero =>
        rw [pow_one] at h
        exact absurd h h10
      | succ k' =>
        have hd : n / 10 < 10 ^ (k' + 1) := by
          apply Nat.div_lt_of_lt_mul
          rw [pow_succ'] at h
          exact h
        have := ih k' (n / 10) hd
        simp only [List.length_singleton]
        omega

theorem natDigits_length_le (k n : Nat) (h : n < 10 ^ (k + 1)) :
    (natDigits n).length ≤ k + 1 :=
  natDigitsAux_length_le n k n h

theorem pad_length (w n : Nat) (h : (natDigits n).length ≤ w) :
    (pad w n).length = w := by
  simp only [pad, List.length_append, List.length_replicate]
  omega

theorem pad_all_digit (w n : Nat) : ∀ c ∈ pad w n, c.isDigit = true := by
  intro c hc
  rcases List.mem_append.mp hc with h1 | h2
  · rw [List.eq_of_mem_replicate h1]
    decide
  · exact natDigits_all_digit n c h2

theorem strftimeLog_format (t : DateTime) (hv : t.Valid) :
    TimeFormat (strftimeLog t) := by
  obtain ⟨hy, hmo, hd, hh, hmi, hs, hus⟩ := hv
  have e4 : (10 : Nat) ^ (3 + 1) = 10000 := by norm_num
  have e2 : (10 : Nat) ^ (1 + 1) = 100 := by norm_num
  have e6 : (10 : Nat) ^ (5 + 1) = 1000000 := by norm_num
  have ly : (pad 4 t.year).length = 4 :=
    pad_length _ _ (natDigits_length_le 3 _ (by rw [e4]; omega))
  have lmo : (pad 2 t.month).length = 2 :=
    pad_length _ _ (natDigits_length_le 1 _ (by rw [e2]; omega))
  have ld : (pad 2 t.day).length = 2 :=
    pad_length _ _ (natDigits_length_le 1 _ (by rw [e2]; omega))
  have lh : (pad 2 t.hour).length = 2 :=
    pad_length _ _ (natDigits_length_le 1 _ (by rw [e2]; omega))
  have lmi : (pad 2 t.minute).length = 2 :=
    pad_length _ _ (natDigits_length_le 1 _ (by rw [e2]; omega))
  have ls : (pad 2 t.second).length = 2 :=
    pad_length _ _ (natDigits_length_le 1 _ (by rw [e2]; omega))
  have lus : (pad 6 t.microsecond).length = 6 :=
    pad_length _ _ (natDigits_length_le 5 _ (by rw [e6]; omega))
  refine ⟨pad 4 t.year, pad 2 t.month, pad 2 t.day, pad 2 t.hour, pad 2 t.minute,
    pad 2 t.second, pad 6 t.microsecond, rfl, ly, lmo, ld, lh, lmi, ls, lus, ?_⟩
  intro c hc
  simp only [List.mem_append] at hc
  rcases hc with ((((((h | h) | h) | h) | h) | h) | h) <;> exact pad_all_digit _ _ c h

/-! Helper lemmas showing the serialized JSON object occupies a single line. -/

theorem escapeChar_no_nl (c : Char) : '\n' ∉ escapeChar c := by
  unfold escapeChar
  by_cases h1 : c = '\"'
  · rw [if_pos h1]; decide
  · rw [if_neg h1]
    by_cases h2 : c = '\\'
    · rw [if_pos h2]; decide
    · rw [if_neg h2]
      by_cases h3 : c = '\n'
      · rw [if_pos h3]; decide
      · rw [if_neg h3]
        by_cases h4 : c = '\r'
        · rw [if_pos h4]; decide
        · rw [if_neg h4]
          by_cases h5 : c = '\t'
          · rw [if_pos h5]; decide
          · rw [if_neg h5]
            rw [List.mem_singleton]
            exact fun he => h3 he.symm

theorem isDigit_ne_nl {c : Char} (h : c.isDigit = true) : c ≠ '\n' := by
  intro he
  subst he
  exact absurd h (by decide)

theorem jstr_no_nl (s : String) : '\n' ∉ jstr s := by
  intro hmem
  rcases List.mem_cons.mp hmem with h | h
  · exact absurd h (by decide)
  · rcases List.mem_append.mp h with h | h
    · rcases List.mem_flatten.mp h with ⟨l, hl, hc⟩
      rcases List.mem_map.mp hl with ⟨c, _, rfl⟩
      exact escapeChar_no_nl c hc
    · rw [List.mem_singleton] at h
      exact absurd h (by decide)

theorem natDigits_no_nl (n : Nat) : '\n' ∉ natDigits n := by
  intro h
  exact isDigit_ne_nl (natDigits_all_digit n _ h) rfl

theorem intChars_no_nl (v : Int) : '\n' ∉ intChars v := by
  cases v with
  | ofNat n => exact natDigits_no_nl n
  | negSucc n =>
    intro h
    rcases List.mem_cons.mp h with h | h
    · exact absurd h (by decide)
    · exact natDigits_no_nl _ h

theorem jvalRender_no_nl (v : JVal) : '\n' ∉ jvalRender v := by
  cases v with
  | s v => exact jstr_no_nl v
  | n v => exact intChars_no_nl v
  | null => decide

theorem entryRender_no_nl (kv : String × JVal) : '\n' ∉ entryRender kv := by
  intro h
  rcases List.mem_append.mp h with h | h
  · exact jstr_no_nl _ h
  · rcases List.mem_cons.mp h with h | h
    · exact absurd h (by decide)
    · rcases List.mem_cons.mp h with h | h
      · exact absurd h (by decide)
      · exact jvalRender_no_nl _ h

theorem joinComma_no_nl : ∀ parts : List (List Char),
    (∀ p ∈ parts, '\n' ∉ p) → '\n' ∉ joinComma parts
  | [], _ => by simp [joinComma]
  | [x], h => by simpa [joinComma] using h x (by simp)
  | x :: y :: xs, h => by
    intro hc
    simp only [joinComma] at hc
    rcases List.mem_append.mp hc with h1 | h1
    · exact h x (by simp) h1
    · rcases List.mem_cons.mp h1 with h2 | h2
      · exact absurd h2 (by decide)
      · rcases List.mem_cons.mp h2 with h3 | h3
        · exact absurd h3 (by decide)
        · exact joinComma_no_nl (y :: xs)
            (fun p hp => h p (List.mem_cons_of_mem x hp)) h3

theorem dumpJson_no_nl (d : List (String × JVal)) : '\n' ∉ (dumpJson d).data := by
  intro hmem
  have h : '\n' ∈ lcurly :: (joinComma (d.map entryRender) ++ [rcurly]) := hmem
  rcases List.mem_cons.mp h with h | h
  · exact absurd h (by decide)
  · rcases List.mem_append.mp h with h | h
    · refine joinComma_no_nl _ ?_ h
      intro p hp
      rcases List.mem_map.mp hp with ⟨kv, _, rfl⟩
      exact entryRender_no_nl kv
    · rw [List.mem_singleton] at h
      exact absurd h (by decide)

/-! Helper lemmas about the logger registry. -/

theorem lookupA_append_single {α : Type} (l : List (String × α)) (k : String) (v : α)
    (h : lookupA l k = none) : lookupA (l ++ [(k, v)]) k = some v := by
  induction l with
  | nil => simp [lookupA]
  | cons p rest ih =>
    obtain ⟨k', w⟩ := p
    by_cases hk : k' = k
    · simp [lookupA, hk] at h
    · simp only [List.cons_append, lookupA, if_neg hk] at h ⊢
      exact ih h

theorem lookupA_updateA {α : Type} (f : α → α) (l : List (String × α)) (k : String) :
    lookupA (updateA f l k) k = (lookupA l k).map f := by
  induction l with
  | nil => simp [updateA, lookupA]
  | cons p rest ih =>
    obtain ⟨k', w⟩ := p
    by_cases hk : k' = k
    · simp [updateA, lookupA, hk]
    · simp [updateA, lookupA, hk, ih]

theorem create_logger_lookup (reg : Registry) (name : String) (lg : PyLogger)
    (h : lookupA reg name = some lg) :
    lookupA (create_logger reg name) name =
      some { lg with
        filters := lg.filters + 1
        level := 10
        handlers := lg.handlers ++ [HandlerKind.console, HandlerKind.jsonFile] } := by
  unfold create_logger getLogger
  rw [h]
  rw [lookupA_updateA, h]
  rfl

theorem create_logger_lookup_none (reg : Registry) (name : String)
    (h : lookupA reg name = none) :
    lookupA (create_logger reg name) name =
      some { level := 10, filters := 1
             handlers := [HandlerKind.console, HandlerKind.jsonFile] } := by
  unfold create_logger getLogger
  rw [h]
  rw [lookupA_updateA, lookupA_append_single reg name freshLogger h]
  rfl

/-! Claim theorems. -/

/-- C1: the claim asserts a rotation policy — when a write would push the
target file past the fixed 10 MiB maximum, the file is rolled into a backup
generation and at most 3 backups are kept. The handler's overridden emit,
however, appends to the base file unconditionally and never consults the file
size: for every record and every file state — in particular a state whose
base file already exceeds the configured maximum — the backup generations are
untouched and the base file only ever grows by the one appended line, so no
rotation and no backup deletion can ever occur. -/
theorem c1_emit_never_rotates (writeFails : Bool) (s : JsonFileState) (r : JsonRecord) :
    (jsonEmit writeFails s r).fs.backups = s.backups ∧
      ∃ t, (jsonEmit writeFails s r).fs.base = s.base ++ t := by
  cases hr : recordToDict r with
  | error e =>
    exact ⟨by simp [jsonEmit, hr], "", by simp [jsonEmit, hr, String.append_empty]⟩
  | ok d =>
    cases writeFails with
    | true =>
      exact ⟨by simp [jsonEmit, hr], "", by simp [jsonEmit, hr, String.append_empty]⟩
    | false =>
      refine ⟨by simp [jsonEmit, hr], dumpJson d ++ "\n", ?_⟩
      simp [jsonEmit, hr, String.append_assoc]

/-- C2: for every record carrying an override map (with the key uniqueness
every Python dictionary has), the filter returns true and the record continues
to be processed, every record attribute named by a key of the map ends up
equal to the map's value for that key, every attribute not named by any key of
the map keeps its previous value, and the record's attribute-name list is
unchanged — so keys matching no existing attribute mutate nothing. -/
theorem c2_cover_filter_overrides (record d : List (String × PyVal))
    (hc : lookupA record "cover" = some (PyVal.dict d))
    (hnd : (d.map Prod.fst).Nodup) :
    (coverFilter record).keep = true ∧
    (∀ k v, (k, v) ∈ d → (lookupA record k).isSome = true →
      lookupA (coverFilter record).record k = some v) ∧
    (∀ k, k ∉ d.map Prod.fst →
      lookupA (coverFilter record).record k = lookupA record k) ∧
    (coverFilter record).record.map Prod.fst = record.map Prod.fst := by
  have hcf : coverFilter record = ⟨coverApply d record, true, []⟩ := by
    unfold coverFilter
    rw [hc]
  rw [hcf]
  refine ⟨rfl, ?_, ?_, coverApply_map_fst d record⟩
  · intro k v hmem hsome
    exact coverApply_lookup_mem k v d hmem hnd record hsome
  · intro k hk
    exact coverApply_lookup_not_mem d k record hk

/-- C2 witness: at the concrete record whose cover map overrides lineno and
also carries an unknown key, the filter keeps the record, the named attribute
takes the override value, an attribute not named is unchanged, and the
attribute-name list is untouched. -/
theorem c2_cover_filter_overrides_witness :
    (coverFilter recEx).keep = true ∧
    lookupA (coverFilter recEx).record "lineno" = some (PyVal.int 999) ∧
    lookupA (coverFilter recEx).record "filename" = lookupA recEx "filename" ∧
    (coverFilter recEx).record.map Prod.fst = recEx.map Prod.fst := by
  have h := c2_cover_filter_overrides recEx
    [("lineno", PyVal.int 999), ("widget", PyVal.str "x")] rfl (by decide)
  exact ⟨h.1, h.2.1 "lineno" (PyVal.int 999) (by simp) rfl,
    h.2.2.1 "filename" (by decide), h.2.2.2⟩

/-- C3 counterexample: on a fresh registry, after one create_logger call the
logger produces one console line and one JSON file line per record, but after
a second call with the same name the same logger identity carries two console
handlers and two JSON handlers, so each record produces two console lines and
two JSON file lines — the second call does double the output, refuting the
claim at this concrete input. -/
theorem c3_second_call_doubles_output :
    (lookupA (create_logger [] "Umi-OCR") "Umi-OCR").map linesPerRecord
        = some (1, 1) ∧
    (lookupA (create_logger (create_logger [] "Umi-OCR") "Umi-OCR") "Umi-OCR").map
        linesPerRecord = some (2, 2) ∧
    (lookupA (create_logger (create_logger [] "Umi-OCR") "Umi-OCR") "Umi-OCR").map
        linesPerRecord ≠ some (1, 1) :=
  ⟨rfl, rfl, by decide⟩

/-- C3 amended: for any registry in which the name is not yet registered, the
first create_logger call leaves the logger producing one console line and one
JSON file line per record, and a second call with the same name adds a second
console handler and a second JSON handler to the same underlying logger, after
which each emitted record produces two console lines and two JSON file lines;
duplicate output is avoided only because the module invokes create_logger
exactly once, at import time. -/
theorem c3_second_call_adds_handlers (reg : Registry) (name : String)
    (h : lookupA reg name = none) :
    (lookupA (create_logger reg name) name).map linesPerRecord = some (1, 1) ∧
    (lookupA (create_logger (create_logger reg name) name) name).map
        linesPerRecord = some (2, 2) := by
  have h1 := create_logger_lookup_none reg name h
  constructor
  · rw [h1]
    rfl
  · have h2 := create_logger_lookup (create_logger reg name) name _ h1
    rw [h2]
    rfl

/-- C3 witness: the amended theorem applied to the empty registry and the
application's logger name. -/
theorem c3_second_call_adds_handlers_witness :
    (lookupA (create_logger [] "Umi-OCR") "Umi-OCR").map linesPerRecord
        = some (1, 1) ∧
    (lookupA (create_logger (create_logger [] "Umi-OCR") "Umi-OCR") "Umi-OCR").map
        linesPerRecord = some (2, 2) :=
  c3_second_call_adds_handlers [] "Umi-OCR" rfl

/-- C4: whenever serialization succeeds and the write succeeds, emit appends
to the target file exactly the serialized object followed by one newline
(append semantics; the internal error path does not run), the serialized
object contains no newline of its own — so exactly one newline-terminated
line is appended — its keys appear in the fixed order time, level, message,
filename, lineno, module, funcName, exc_text, stack_info, thread, threadName,
process, processName, name, the time field is the strftime rendering of the
record's creation instant in year-month-day hour:minute:second.microseconds
shape, the message field is the fully resolved message, and absent exception
and stack texts serialize as null. -/
theorem c4_json_line (s : JsonFileState) (r : JsonRecord) (d : List (String × JVal))
    (hok : recordToDict r = Except.ok d) (hv : r.created.Valid) :
    (jsonEmit false s r).fs.base = s.base ++ dumpJson d ++ "\n" ∧
    (jsonEmit false s r).handleErrors = 0 ∧
    '\n' ∉ (dumpJson d).data ∧
    d.map Prod.fst = ["time", "level", "message", "filename", "lineno", "module",
      "funcName", "exc_text", "stack_info", "thread", "threadName", "process",
      "processName", "name"] ∧
    lookupA d "time" = some (JVal.s (strftimeLog r.created)) ∧
    TimeFormat (strftimeLog r.created) ∧
    (∃ m, getMessage r.msg r.args = Except.ok m ∧
      lookupA d "message" = some (JVal.s m)) ∧
    (r.exc_text = none → lookupA d "exc_text" = some JVal.null) ∧
    (r.stack_info = none → lookupA d "stack_info" = some JVal.null) := by
  cases hm : getMessage r.msg r.args with
  | error e =>
    unfold recordToDict at hok
    rw [hm] at hok
    cases hok
  | ok m =>
    unfold recordToDict at hok
    rw [hm] at hok
    injection hok with hd
    subst hd
    refine ⟨by simp [jsonEmit, recordToDict, hm], by simp [jsonEmit, recordToDict, hm],
      dumpJson_no_nl _, rfl, rfl, strftimeLog_format r.created hv,
      ⟨m, rfl, rfl⟩, ?_, ?_⟩
    · intro he
      rw [he]
      rfl
    · intro he
      rw [he]
      rfl

/-- C4 witness: the theorem applied to a concrete record and an empty file. -/
theorem c4_json_line_witness :
    (jsonEmit false ⟨"", []⟩ rEx).fs.base
        = "" ++ dumpJson (exOk (recordToDict rEx)) ++ "\n" ∧
    (exOk (recordToDict rEx)).map Prod.fst = ["time", "level", "message",
      "filename", "lineno", "module", "funcName", "exc_text", "stack_info",
      "thread", "threadName", "process", "processName", "name"] ∧
    TimeFormat (strftimeLog rEx.created) := by
  have h := c4_json_line ⟨"", []⟩ rEx (exOk (recordToDict rEx)) rfl (by decide)
  exact ⟨h.1, h.2.2.2.1, h.2.2.2.2.2.1⟩

/-- C5: whenever serialization fails or the file write fails inside emit, the
failure stays inside emit, which is a total operation returning normally to
its caller: the file system is left unchanged — only that one record's
persistence is lost — and the handler's internal error path handleError runs
at least once, nothing being re-logged through the handler's own file. -/
theorem c5_emit_failure_contained (writeFails : Bool) (s : JsonFileState)
    (r : JsonRecord)
    (h : (∃ e, recordToDict r = Except.error e) ∨ writeFails = true) :
    (jsonEmit writeFails s r).fs = s ∧ 1 ≤ (jsonEmit writeFails s r).handleErrors := by
  rcases h with ⟨e, he⟩ | hw
  · refine ⟨by simp [jsonEmit, he], ?_⟩
    simp [jsonEmit, he]
  · subst hw
    cases hr : recordToDict r with
    | error e =>
      refine ⟨by simp [jsonEmit, hr], ?_⟩
      simp [jsonEmit, hr]
    | ok d =>
      refine ⟨by simp [jsonEmit, hr], ?_⟩
      simp [jsonEmit, hr]

/-- C5 witness: at a concrete record whose message has two placeholders but
one argument, serialization fails, the file keeps its previous contents and
the internal error path ran. -/
theorem c5_emit_failure_contained_witness :
    (jsonEmit false ⟨"keep", []⟩ rBad).fs = ⟨"keep", []⟩ ∧
    1 ≤ (jsonEmit false ⟨"keep", []⟩ rBad).handleErrors :=
  c5_emit_failure_contained false ⟨"keep", []⟩ rBad (Or.inl ⟨(), rfl⟩)

/-- C6: when the record's cover attribute is present but not a dictionary —
the way the override process fails — the filter returns false, suppressing
only that record and raising nothing to the caller (the filter is a total
operation), leaves the record unmutated, and makes exactly one internal
error-logging call through the same channel with exception and stack context
attached and no cover map of its own; moreover any record carrying no cover
attribute — as the record of that internal call is — filters successfully
with no further error logging, so the failure path cannot recurse. -/
theorem c6_cover_filter_failure (record : List (String × PyVal)) (v : PyVal)
    (hc : lookupA record "cover" = some v)
    (hnv : ∀ d, v ≠ PyVal.dict d) :
    (coverFilter record).keep = false ∧
    (coverFilter record).record = record ∧
    (coverFilter record).errLogs = [⟨"日志过滤错误", true, true, none⟩] ∧
    (∀ record2, lookupA record2 "cover" = none →
      (coverFilter record2).keep = true ∧ (coverFilter record2).errLogs = []) := by
  have hcf : coverFilter record = ⟨record, false, [⟨"日志过滤错误", true, true, none⟩]⟩ := by
    unfold coverFilter
    rw [hc]
    cases v with
    | dict d => exact absurd rfl (hnv d)
    | str a => rfl
    | int a => rfl
    | pynone => rfl
  rw [hcf]
  refine ⟨rfl, rfl, rfl, ?_⟩
  intro record2 h2
  have h2cf : coverFilter record2 = ⟨record2, true, []⟩ := by
    unfold coverFilter
    rw [h2]
  rw [h2cf]
  exact ⟨rfl, rfl⟩

/-- C6 witness: at the concrete record whose cover attribute is the integer 3,
the filter suppresses the record, mutates nothing, and logs exactly one error
call with exception and stack context and no cover map. -/
theorem c6_cover_filter_failure_witness :
    (coverFilter recBad).keep = false ∧
    (coverFilter recBad).record = recBad ∧
    (coverFilter recBad).errLogs = [⟨"日志过滤错误", true, true, none⟩] := by
  have h := c6_cover_filter_failure recBad (PyVal.int 3) rfl (fun d hd => nomatch hd)
  exact ⟨h.1, h.2.1, h.2.2.1⟩

/-- C7: the Qt message handler maps the toolkit severities debug, info,
warning, critical, fatal to the logger severities debug, info, warning,
error, critical respectively, the override map it attaches always tags module
as the literal string qml, and when the context's function name is the empty
string the override map's funcName is the anonymous-function placeholder; in
particular a fatal message with an empty function name is emitted at critical
severity with the placeholder funcName. -/
theorem c7_qt_severity_map (ctx : QtContext) (msg : String) :
    qt_message_handler qtDebugMsg ctx msg = some ⟨LogLevel.debug, msg, qtCover ctx⟩ ∧
    qt_message_handler qtInfoMsg ctx msg = some ⟨LogLevel.info, msg, qtCover ctx⟩ ∧
    qt_message_handler qtWarningMsg ctx msg = some ⟨LogLevel.warning, msg, qtCover ctx⟩ ∧
    qt_message_handler qtCriticalMsg ctx msg = some ⟨LogLevel.error, msg, qtCover ctx⟩ ∧
    qt_message_handler qtFatalMsg ctx msg = some ⟨LogLevel.critical, msg, qtCover ctx⟩ ∧
    lookupA (qtCover ctx) "module" = some (PyVal.str "qml") ∧
    (ctx.function = some "" →
      lookupA (qtCover ctx) "funcName" = some (PyVal.str "()=>\x7b\x7d")) := by
  refine ⟨rfl, rfl, rfl, rfl, rfl, rfl, ?_⟩
  intro hf
  have h1 : lookupA (qtCover ctx) "funcName" = some (PyVal.str (qtFuncName ctx)) := rfl
  rw [h1]
  simp [qtFuncName, hf]

/-- C7 witness: a fatal message in a context with an empty function name is
emitted at critical severity and its override map carries the
anonymous-function placeholder. -/
theorem c7_qt_severity_map_witness :
    qt_message_handler qtFatalMsg ctxEx "boom"
        = some ⟨LogLevel.critical, "boom", qtCover ctxEx⟩ ∧
    lookupA (qtCover ctxEx) "funcName" = some (PyVal.str "()=>\x7b\x7d") := by
  have h := c7_qt_severity_map ctxEx "boom"
  exact ⟨h.2.2.2.2.1, h.2.2.2.2.2.2 rfl⟩

/-- C8: the console formatter's severity-to-symbol table maps the five known
level names to their fixed symbols, and any level name outside the table is
rendered as itself. -/
theorem c8_level_symbols (s : String) :
    levelSymbol "DEBUG" = "√" ∧ levelSymbol "INFO" = "i" ∧
    levelSymbol "WARNING" = "?" ∧ levelSymbol "ERROR" = "×" ∧
    levelSymbol "CRITICAL" = "!" ∧
    (s ∉ ["DEBUG", "INFO", "WARNING", "ERROR", "CRITICAL"] → levelSymbol s = s) := by
  refine ⟨rfl, rfl, rfl, rfl, rfl, ?_⟩
  intro h
  simp only [List.mem_cons, not_or] at h
  obtain ⟨h1, h2, h3, h4, h5, _⟩ := h
  have g1 : ¬("DEBUG" = s) := fun he => h1 he.symm
  have g2 : ¬("INFO" = s) := fun he => h2 he.symm
  have g3 : ¬("WARNING" = s) := fun he => h3 he.symm
  have g4 : ¬("ERROR" = s) := fun he => h4 he.symm
  have g5 : ¬("CRITICAL" = s) := fun he => h5 he.symm
  simp [levelSymbol, LEVEL_SYMBOLS, lookupA, g1, g2, g3, g4, g5]

/-- C8 witness: an unknown severity level name is rendered as itself. -/
theorem c8_level_symbols_witness : levelSymbol "TRACE" = "TRACE" :=
  (c8_level_symbols "TRACE").2.2.2.2.2 (by decide)

/-- C9: the text writer appends nothing for a no-text result (code 101) when
the ignore-blank option is enabled; and for a success result (code 100) whose
data holds text fragments it appends the header line naming the image, then
each fragment followed by its own newline — each fragment on its own line —
and then one extra newline producing one blank line. -/
theorem c9_output_txt (file : String) (res : OcrResult) :
    (res.code = 101 → outputTxtPrint true file res = file) ∧
    (∀ (ib : Bool) (l : List String), res.code = 100 → res.data = ResData.frags l →
      outputTxtPrint ib file res = file ++ ("≦ " ++ res.fileName ++ " ≧\n") ++
        String.join (l.map (fun r => r ++ "\n")) ++ "\n") := by
  constructor
  · intro h101
    unfold outputTxtPrint
    rw [if_pos]
    exact ⟨by rw [h101]; decide, rfl⟩
  · intro ib l h100 hdata
    unfold outputTxtPrint
    rw [if_neg (fun hco => hco.1 h100)]
    simp only [h100, hdata, resFrags]
    norm_num

/-- C9 witness: the concrete no-text result appends nothing under ignore-blank
and the concrete two-fragment success result appends the header, both
fragments each on their own line, and one blank line. -/
theorem c9_output_txt_witness :
    outputTxtPrint true "start" resBlank = "start" ∧
    outputTxtPrint false "start" resText = "start" ++ ("≦ " ++ "b.png" ++ " ≧\n") ++
      String.join (["hello", "world"].map (fun r => r ++ "\n")) ++ "\n" := by
  constructor
  · exact (c9_output_txt "start" resBlank).1 rfl
  · exact (c9_output_txt "start" resText).2 false ["hello", "world"] rfl rfl

/-- C10: any mode value other than the five recognized QtMsgType values falls
through the dispatch chain of the Qt message handler: no logger emit operation
is invoked and the handler returns normally with nothing emitted. -/
theorem c10_qt_unknown_mode_dropped (mode : Nat) (ctx : QtContext) (msg : String)
    (h : mode ∉ [qtDebugMsg, qtWarningMsg, qtCriticalMsg, qtFatalMsg, qtInfoMsg]) :
    qt_message_handler mode ctx msg = none := by
  simp only [List.mem_cons, not_or] at h
  obtain ⟨h0, h1, h2, h3, h4, _⟩ := h
  simp [qt_message_handler, h0, h1, h2, h3, h4]

/-- C10 witness: mode value 9 is not a recognized QtMsgType value and the
handler emits nothing for it. -/
theorem c10_qt_unknown_mode_dropped_witness :
    qt_message_handler 9 ⟨none, none, none, none, none⟩ "x" = none :=
  c10_qt_unknown_mode_dropped 9 ⟨none, none, none, none, none⟩ "x" (by decide)
